import Mathlib

/-!
Verification development for the terminal input and interactive-prompt engine
of the devex tool (source: `src/lib/version.ts`).

The embedding is a shallow translation of the TypeScript source:
* a `Key` event mirrors the decoder's tagged union (the source's "ctrl-c" is
  the spec's "interrupt");
* `readKey` mirrors the decoder applied to the byte chunk delivered by one
  read of standard input (the source reads into a zero-initialised 8-byte
  buffer, so positions past the read length read as 0, modelled by `List.getD`);
* each widget's interactive loop is a function from the list of decoded keys
  to a trace of terminal-affecting effects (`Eff`) paired with an outcome:
  normal return (`done`), process end (`exited`), or still blocked on input
  (`blocked`, when the key list is exhausted mid-loop);
* fallback (non-terminal) paths are functions of the one line returned by the
  line-buffered prompt (`none` models a null result);
* JS strings are modelled as Lean strings (sequences of code points); the
  text decoding performed by `TextDecoder` is modelled by a WHATWG UTF-8
  decoder with U+FFFD replacement and leading-BOM stripping.
-/

/-- One terminal-affecting action performed by the subsystem. -/
inductive Eff where
  | setRaw (engaged : Bool)
  | write (text : String)
  | read
  | exit (code : Nat)
  | logLine (text : String)
  | promptMsg (text : String)
deriving DecidableEq, Repr

/-- Decoded key event, mirroring the source's `Key` union type. -/
inductive Key where
  | char (text : String)
  | enter
  | escape
  | backspace
  | up
  | down
  | left
  | right
  | ctrlC
  | unknown
deriving DecidableEq, Repr

/-- Result of running a widget on a finite list of decoded keys. -/
inductive Outcome (α : Type) where
  | done (v : α)
  | exited (code : Nat)
  | blocked
deriving DecidableEq, Repr

/-- The environment a widget call observes on standard input. -/
structure StdIn where
  isTerminal : Bool
  line : Option String
  keys : List Key
deriving Repr

/-- ANSI escape lead byte, as in the source. -/
def ESC : String := "\x1b"

/-- Control sequence introducer, as in the source. -/
def CSI : String := ESC ++ "["

namespace ansi

def hideCursor : String := CSI ++ "?25l"

def showCursor : String := CSI ++ "?25h"

def cursorUp (n : Nat) : String := CSI ++ toString n ++ "A"

def clearLine : String := CSI ++ "2K"

def reset : String := CSI ++ "0m"

def bold : String := CSI ++ "1m"

def dim : String := CSI ++ "2m"

def cyan : String := CSI ++ "36m"

end ansi

/-- The WHATWG replacement character emitted for malformed UTF-8. -/
def replChar : Char := Char.ofNat 0xFFFD

/-- WHATWG UTF-8 decode with replacement, the behaviour of `new TextDecoder().decode`
on the byte list: valid sequences become their code point, malformed bytes become
U+FFFD with the offending byte reprocessed as a new lead byte. The fuel argument
(instantiated with the list length, which bounds the number of emitted characters)
makes the recursion structural so it evaluates inside the kernel. -/
def utf8DecodeAux : Nat → List Nat → List Char
  | _, [] => []
  | 0, _ :: _ => []
  | fuel + 1, b :: rest =>
    if b ≤ 0x7F then Char.ofNat b :: utf8DecodeAux fuel rest
    else if 0xC2 ≤ b ∧ b ≤ 0xDF then
      match rest with
      | [] => [replChar]
      | b2 :: rest2 =>
        if 0x80 ≤ b2 ∧ b2 ≤ 0xBF then
          Char.ofNat ((b % 0x20) * 0x40 + b2 % 0x40) :: utf8DecodeAux fuel rest2
        else replChar :: utf8DecodeAux fuel (b2 :: rest2)
    else if 0xE0 ≤ b ∧ b ≤ 0xEF then
      match rest with
      | [] => [replChar]
      | b2 :: rest2 =>
        if (if b = 0xE0 then 0xA0 else 0x80) ≤ b2 ∧ b2 ≤ (if b = 0xED then 0x9F else 0xBF) then
          match rest2 with
          | [] => [replChar]
          | b3 :: rest3 =>
            if 0x80 ≤ b3 ∧ b3 ≤ 0xBF then
              Char.ofNat ((b % 0x10) * 0x1000 + (b2 % 0x40) * 0x40 + b3 % 0x40) ::
                utf8DecodeAux fuel rest3
            else replChar :: utf8DecodeAux fuel (b3 :: rest3)
        else replChar :: utf8DecodeAux fuel (b2 :: rest2)
    else if 0xF0 ≤ b ∧ b ≤ 0xF4 then
      match rest with
      | [] => [replChar]
      | b2 :: rest2 =>
        if (if b = 0xF0 then 0x90 else 0x80) ≤ b2 ∧ b2 ≤ (if b = 0xF4 then 0x8F else 0xBF) then
          match rest2 with
          | [] => [replChar]
          | b3 :: rest3 =>
            if 0x80 ≤ b3 ∧ b3 ≤ 0xBF then
              match rest3 with
              | [] => [replChar]
              | b4 :: rest4 =>
                if 0x80 ≤ b4 ∧ b4 ≤ 0xBF then
                  Char.ofNat
                      ((b % 0x08) * 0x40000 + (b2 % 0x40) * 0x1000 + (b3 % 0x40) * 0x40 +
                        b4 % 0x40) :: utf8DecodeAux fuel rest4
                else replChar :: utf8DecodeAux fuel (b4 :: rest4)
            else replChar :: utf8DecodeAux fuel (b3 :: rest3)
        else replChar :: utf8DecodeAux fuel (b2 :: rest2)
    else replChar :: utf8DecodeAux fuel rest

/-- UTF-8 decode of a whole byte list. -/
def utf8DecodeList (bs : List Nat) : List Char :=
  utf8DecodeAux bs.length bs

/-- `new TextDecoder().decode(bytes)`: UTF-8 with replacement, stripping
a leading byte-order mark (the decoder's default). -/
def decodeUtf8 (bs : List Nat) : String :=
  match bs with
  | 0xEF :: 0xBB :: 0xBF :: rest => String.mk (utf8DecodeList rest)
  | _ => String.mk (utf8DecodeList bs)

/-- `readKey`: classify the byte chunk delivered by one read of standard input
(at most 8 bytes; the source's buffer is zero-initialised, so `buf[i]` past the
read length reads 0, modelled by `List.getD _ _ 0`). The empty list models a
null or zero-length read. -/
def readKey (chunk : List Nat) : Key :=
  match chunk with
  | [] => Key.unknown
  | first :: tail =>
    if first = 0x03 then Key.ctrlC
    else if first = 13 then Key.enter
    else if first = 127 ∨ first = 8 then Key.backspace
    else if first = 27 then
      if tail = [] then Key.escape
      else if tail.getD 0 0 = 91 then
        if tail.getD 1 0 = 65 then Key.up
        else if tail.getD 1 0 = 66 then Key.down
        else if tail.getD 1 0 = 67 then Key.right
        else if tail.getD 1 0 = 68 then Key.left
        else Key.unknown
      else Key.unknown
    else Key.char (decodeUtf8 (first :: tail))

/-- Whitespace skipped by `parseInt` and stripped by `trim` (ASCII range). -/
def jsWhitespaceChar (c : Char) : Bool :=
  c = ' ' || c = '\t' || c = '\n' || c = '\r' || c = Char.ofNat 11 || c = Char.ofNat 12

/-- The longest leading run of decimal digits. -/
def leadingDigits : List Char → List Char
  | [] => []
  | c :: cs => if c.isDigit then c :: leadingDigits cs else []

/-- Numeric value of a digit string. -/
def digitsToNat (ds : List Char) : Nat :=
  ds.foldl (fun acc c => acc * 10 + (c.toNat - 48)) 0

/-- JavaScript `parseInt(s, 10)`: skip leading whitespace, optional sign, then
the longest digit run; `none` models `NaN` (no digits). -/
def jsParseInt (s : String) : Option Int :=
  let cs := s.data.dropWhile (fun c => jsWhitespaceChar c)
  match cs with
  | '-' :: rest =>
      let ds := leadingDigits rest
      if ds = [] then none else some (-(digitsToNat ds : Int))
  | '+' :: rest =>
      let ds := leadingDigits rest
      if ds = [] then none else some ((digitsToNat ds : Int))
  | _ =>
      let ds := leadingDigits cs
      if ds = [] then none else some ((digitsToNat ds : Int))

/-- JavaScript `String.prototype.trim` (ASCII whitespace). -/
def jsTrim (s : String) : String :=
  String.mk (((s.data.dropWhile (fun c => jsWhitespaceChar c)).reverse.dropWhile
    (fun c => jsWhitespaceChar c)).reverse)

/-- ASCII lowering of one character. -/
def asciiLower (c : Char) : Char :=
  if 'A' ≤ c ∧ c ≤ 'Z' then Char.ofNat (c.toNat + 32) else c

/-- JavaScript `String.prototype.toLowerCase` (ASCII range). -/
def jsToLower (s : String) : String :=
  String.mk (s.data.map asciiLower)

/-- Frame text fragments of `select`'s `render`: each entry is the argument of
one `write` call, in order (clear current line, question line, then per option
a clear and the option line, highlighted when selected). -/
def selectFrameWrites (q : String) (opts : List String) (sel : Int) : List String :=
  ("\r" ++ ansi.clearLine) :: (q ++ "\n") ::
    (opts.enum.flatMap fun p =>
      [ansi.clearLine,
       if (p.1 : Int) = sel then ansi.cyan ++ "❯ " ++ p.2 ++ ansi.reset ++ "\n"
       else "  " ++ ansi.dim ++ p.2 ++ ansi.reset ++ "\n"])

/-- Effects of one `select` redraw. -/
def selectRenderTr (q : String) (opts : List String) (sel : Int) : List Eff :=
  (selectFrameWrites q opts sel).map Eff.write

/-- Effects of `select`'s `moveUp` (cursor up by option count plus the question line). -/
def selectMoveUpTr (opts : List String) : List Eff :=
  [Eff.write (ansi.cursorUp (opts.length + 1))]

/-- The state change of one non-terminating key in `select`'s loop: the new
selected index and whether the branch redraws. -/
def selectUpdate (len : Nat) (sel : Int) (k : Key) : Int × Bool :=
  match k with
  | Key.up => if sel > 0 then (sel - 1, true) else (sel, false)
  | Key.down => if sel < (len : Int) - 1 then (sel + 1, true) else (sel, false)
  | Key.char c =>
      match jsParseInt c with
      | some num =>
          if 1 ≤ num ∧ num ≤ (len : Int) then (num - 1, true) else (sel, false)
      | none => (sel, false)
  | _ => (sel, false)

/-- `select`'s interactive `while` loop, as a function of the decoded keys. -/
def selectLoopTr (q : String) (opts : List String) (sel : Int) :
    List Key → List Eff × Outcome Int
  | [] => ([], Outcome.blocked)
  | Key.ctrlC :: _ =>
      ([Eff.read, Eff.write ansi.showCursor, Eff.setRaw false, Eff.exit 130],
       Outcome.exited 130)
  | Key.enter :: _ => ([Eff.read], Outcome.done sel)
  | k :: ks =>
      let u := selectUpdate opts.length sel k
      let p := selectLoopTr q opts u.1 ks
      (Eff.read ::
        (if u.2 then selectMoveUpTr opts ++ selectRenderTr q opts u.1 else []) ++ p.1,
       p.2)

/-- `select`'s interactive path: engage raw mode, hide the cursor, render, run
the loop; on normal completion the `finally` disengages raw mode and shows the
cursor again (the interrupt path exits inside the loop, bypassing `finally`). -/
def selectInteractive (q : String) (opts : List String) (d : Int) (ks : List Key) :
    List Eff × Outcome Int :=
  match selectLoopTr q opts d ks with
  | (tr, Outcome.done v) =>
      ((Eff.setRaw true :: Eff.write ansi.hideCursor :: selectRenderTr q opts d) ++ tr ++
        [Eff.setRaw false, Eff.write ansi.showCursor], Outcome.done v)
  | (tr, o) =>
      ((Eff.setRaw true :: Eff.write ansi.hideCursor :: selectRenderTr q opts d) ++ tr, o)

/-- `select`'s fallback path for non-terminal standard input. -/
def selectFallback (q : String) (opts : List String) (d : Int) (line : Option String) :
    List Eff × Int :=
  let tr := Eff.logLine q ::
    (opts.enum.map fun p =>
      Eff.logLine ("  " ++ (if (p.1 : Int) = d then ">" else " ") ++ " " ++
        toString (p.1 + 1) ++ ". " ++ p.2)) ++
    [Eff.promptMsg ("Choice [" ++ toString (d + 1) ++ "]:")]
  match line with
  | none => (tr, d)
  | some s =>
      if jsTrim s = "" then (tr, d)
      else
        match jsParseInt (jsTrim s) with
        | some num => if 1 ≤ num ∧ num ≤ (opts.length : Int) then (tr, num - 1) else (tr, d)
        | none => (tr, d)

/-- The full `select` call: empty option list returns -1 at once; otherwise the
mode selector picks the fallback or interactive path. -/
def select (q : String) (options : List String) (defaultIndex : Int) (stdin : StdIn) :
    List Eff × Outcome Int :=
  if options.length = 0 then ([], Outcome.done (-1))
  else if stdin.isTerminal = false then
    let p := selectFallback q options defaultIndex stdin.line
    (p.1, Outcome.done p.2)
  else selectInteractive q options defaultIndex stdin.keys

/-- Frame text fragments of `input`'s `render`. -/
def inputFrameWrites (q dflt v : String) : List String :=
  [("\r" ++ ansi.clearLine),
   if v ≠ "" then q ++ ": " ++ v
   else if dflt ≠ "" then q ++ ": " ++ ansi.dim ++ dflt ++ ansi.reset
   else q ++ ": "]

/-- Effects of one `input` redraw. -/
def inputRenderTr (q dflt v : String) : List Eff :=
  (inputFrameWrites q dflt v).map Eff.write

/-- The state change of one non-terminating key in `input`'s loop: the new
buffer and whether the branch redraws. -/
def inputUpdate (v : String) (k : Key) : String × Bool :=
  match k with
  | Key.backspace =>
      if v.length > 0 then (String.mk v.data.dropLast, true) else (v, false)
  | Key.char c => (v ++ c, true)
  | _ => (v, false)

/-- `input`'s interactive `while` loop. -/
def inputLoopTr (q dflt : String) (v : String) : List Key → List Eff × Outcome String
  | [] => ([], Outcome.blocked)
  | Key.ctrlC :: _ => ([Eff.read, Eff.setRaw false, Eff.exit 130], Outcome.exited 130)
  | Key.enter :: _ => ([Eff.read, Eff.write "\n"], Outcome.done v)
  | k :: ks =>
      let u := inputUpdate v k
      let p := inputLoopTr q dflt u.1 ks
      (Eff.read :: (if u.2 then inputRenderTr q dflt u.1 else []) ++ p.1, p.2)

/-- `input`'s interactive path; the returned value is `value || defaultValue`. -/
def inputInteractive (q dflt : String) (ks : List Key) : List Eff × Outcome String :=
  match inputLoopTr q dflt "" ks with
  | (tr, Outcome.done v) =>
      ((Eff.setRaw true :: inputRenderTr q dflt "") ++ tr ++ [Eff.setRaw false],
       Outcome.done (if v = "" then dflt else v))
  | (tr, o) => ((Eff.setRaw true :: inputRenderTr q dflt "") ++ tr, o)

/-- `input`'s fallback path for non-terminal standard input. -/
def inputFallback (q dflt : String) (line : Option String) : List Eff × String :=
  let suffix := if dflt ≠ "" then " [" ++ dflt ++ "]" else ""
  let tr := [Eff.promptMsg (q ++ suffix ++ ":")]
  match line with
  | none => (tr, dflt)
  | some s => if jsTrim s = "" then (tr, dflt) else (tr, jsTrim s)

/-- The full `input` call. -/
def input (q : String) (defaultValue : String) (stdin : StdIn) :
    List Eff × Outcome String :=
  if stdin.isTerminal = false then
    let p := inputFallback q defaultValue stdin.line
    (p.1, Outcome.done p.2)
  else inputInteractive q defaultValue stdin.keys

/-- The list of integers from `lo` to `hi` inclusive (the source's `for` loop range). -/
def intRange (lo hi : Int) : List Int :=
  (List.range (hi + 1 - lo).toNat).map fun k => lo + (k : Int)

/-- `rating`'s `renderScale`: every value in `[min, max]` inline, the current
value bold and coloured, the rest dimmed. -/
def ratingScale (min max v : Int) : String :=
  String.join ((intRange min max).map fun i =>
    if i = v then ansi.cyan ++ ansi.bold ++ toString i ++ ansi.reset ++ " "
    else ansi.dim ++ toString i ++ ansi.reset ++ " ")

/-- Frame text fragments of `rating`'s `render`. -/
def ratingFrameWrites (q : String) (min max v : Int) : List String :=
  [("\r" ++ ansi.clearLine), q ++ ": " ++ ratingScale min max v]

/-- Effects of one `rating` redraw. -/
def ratingRenderTr (q : String) (min max v : Int) : List Eff :=
  (ratingFrameWrites q min max v).map Eff.write

/-- The state change of one non-terminating key in `rating`'s loop. -/
def ratingUpdate (min max v : Int) (k : Key) : Int × Bool :=
  match k with
  | Key.left | Key.down => if v > min then (v - 1, true) else (v, false)
  | Key.right | Key.up => if v < max then (v + 1, true) else (v, false)
  | Key.char c =>
      match jsParseInt c with
      | some num => if min ≤ num ∧ num ≤ max then (num, true) else (v, false)
      | none => (v, false)
  | _ => (v, false)

/-- `rating`'s interactive `while` loop. -/
def ratingLoopTr (q : String) (min max : Int) (v : Int) :
    List Key → List Eff × Outcome Int
  | [] => ([], Outcome.blocked)
  | Key.ctrlC :: _ => ([Eff.read, Eff.setRaw false, Eff.exit 130], Outcome.exited 130)
  | Key.enter :: _ => ([Eff.read, Eff.write "\n"], Outcome.done v)
  | k :: ks =>
      let u := ratingUpdate min max v k
      let p := ratingLoopTr q min max u.1 ks
      (Eff.read :: (if u.2 then ratingRenderTr q min max u.1 else []) ++ p.1, p.2)

/-- `rating`'s interactive path. -/
def ratingInteractive (q : String) (min max dflt : Int) (ks : List Key) :
    List Eff × Outcome Int :=
  match ratingLoopTr q min max dflt ks with
  | (tr, Outcome.done v) =>
      ((Eff.setRaw true :: ratingRenderTr q min max dflt) ++ tr ++ [Eff.setRaw false],
       Outcome.done v)
  | (tr, o) => ((Eff.setRaw true :: ratingRenderTr q min max dflt) ++ tr, o)

/-- `rating`'s fallback path for non-terminal standard input. -/
def ratingFallback (q : String) (min max dflt : Int) (line : Option String) :
    List Eff × Int :=
  let tr := [Eff.promptMsg (q ++ " (" ++ toString min ++ "-" ++ toString max ++ ") [" ++
    toString dflt ++ "]:")]
  match line with
  | none => (tr, dflt)
  | some s =>
      if jsTrim s = "" then (tr, dflt)
      else
        match jsParseInt (jsTrim s) with
        | some num => if min ≤ num ∧ num ≤ max then (tr, num) else (tr, dflt)
        | none => (tr, dflt)

/-- The full `rating` call. -/
def rating (q : String) (min max defaultValue : Int) (stdin : StdIn) :
    List Eff × Outcome Int :=
  if stdin.isTerminal = false then
    let p := ratingFallback q min max defaultValue stdin.line
    (p.1, Outcome.done p.2)
  else ratingInteractive q min max defaultValue stdin.keys

/-- Frame text fragments of `confirm`'s `render`. -/
def confirmFrameWrites (q : String) (v : Bool) : List String :=
  [("\r" ++ ansi.clearLine),
   q ++ " " ++
     (if v then ansi.cyan ++ ansi.bold ++ "Yes" ++ ansi.reset
      else ansi.dim ++ "Yes" ++ ansi.reset) ++ " / " ++
     (if !v then ansi.cyan ++ ansi.bold ++ "No" ++ ansi.reset
      else ansi.dim ++ "No" ++ ansi.reset)]

/-- Effects of one `confirm` redraw. -/
def confirmRenderTr (q : String) (v : Bool) : List Eff :=
  (confirmFrameWrites q v).map Eff.write

/-- The state change of one non-terminating key in `confirm`'s loop. -/
def confirmUpdate (v : Bool) (k : Key) : Bool × Bool :=
  match k with
  | Key.left | Key.right | Key.up | Key.down => (!v, true)
  | Key.char c =>
      if jsToLower c = "y" then (true, true)
      else if jsToLower c = "n" then (false, true)
      else (v, false)
  | _ => (v, false)

/-- `confirm`'s interactive `while` loop. -/
def confirmLoopTr (q : String) (v : Bool) : List Key → List Eff × Outcome Bool
  | [] => ([], Outcome.blocked)
  | Key.ctrlC :: _ => ([Eff.read, Eff.setRaw false, Eff.exit 130], Outcome.exited 130)
  | Key.enter :: _ => ([Eff.read, Eff.write "\n"], Outcome.done v)
  | k :: ks =>
      let u := confirmUpdate v k
      let p := confirmLoopTr q u.1 ks
      (Eff.read :: (if u.2 then confirmRenderTr q u.1 else []) ++ p.1, p.2)

/-- `confirm`'s interactive path. -/
def confirmInteractive (q : String) (dflt : Bool) (ks : List Key) :
    List Eff × Outcome Bool :=
  match confirmLoopTr q dflt ks with
  | (tr, Outcome.done v) =>
      ((Eff.setRaw true :: confirmRenderTr q dflt) ++ tr ++ [Eff.setRaw false],
       Outcome.done v)
  | (tr, o) => ((Eff.setRaw true :: confirmRenderTr q dflt) ++ tr, o)

/-- `confirm`'s fallback path: the result for a non-blank line is the test
`lower === "y" || lower === "yes"` itself. -/
def confirmFallback (q : String) (dflt : Bool) (line : Option String) :
    List Eff × Bool :=
  let hint := if dflt then "[Y/n]" else "[y/N]"
  let tr := [Eff.promptMsg (q ++ " " ++ hint ++ ":")]
  match line with
  | none => (tr, dflt)
  | some s =>
      if jsTrim s = "" then (tr, dflt)
      else (tr, jsToLower (jsTrim s) == "y" || jsToLower (jsTrim s) == "yes")

/-- The full `confirm` call. -/
def confirm (q : String) (defaultValue : Bool) (stdin : StdIn) :
    List Eff × Outcome Bool :=
  if stdin.isTerminal = false then
    let p := confirmFallback q defaultValue stdin.line
    (p.1, Outcome.done p.2)
  else confirmInteractive q defaultValue stdin.keys

/-- The raw-mode flag after running a trace of effects from a given state. -/
def rawFold (init : Bool) (tr : List Eff) : Bool :=
  tr.foldl (fun st e => match e with | Eff.setRaw b => b | _ => st) init

/-- Number of `write` calls in a trace. -/
def writeCount (tr : List Eff) : Nat :=
  tr.countP fun e => match e with | Eff.write _ => true | _ => false

theorem rawFold_append (b : Bool) (l1 l2 : List Eff) :
    rawFold b (l1 ++ l2) = rawFold (rawFold b l1) l2 :=
  List.foldl_append _ _ _ _

theorem rawFold_cons_read (b : Bool) (l : List Eff) :
    rawFold b (Eff.read :: l) = rawFold b l := rfl

theorem rawFold_cons_write (b : Bool) (s : String) (l : List Eff) :
    rawFold b (Eff.write s :: l) = rawFold b l := rfl

theorem rawFold_cons_setRaw (b b2 : Bool) (l : List Eff) :
    rawFold b (Eff.setRaw b2 :: l) = rawFold b2 l := rfl

theorem rawFold_map_write_append (b : Bool) (l : List String) (l2 : List Eff) :
    rawFold b (l.map Eff.write ++ l2) = rawFold b l2 := by
  induction l with
  | nil => rfl
  | cons s t ih => simpa [rawFold_cons_write] using ih

theorem selectLoopTr_raw (q : String) (opts : List String) (ks : List Key) :
    ∀ (sel : Int) (b : Bool),
      ((∃ v, (selectLoopTr q opts sel ks).2 = Outcome.done v) →
        rawFold b (selectLoopTr q opts sel ks).1 = b) ∧
      ((∃ c, (selectLoopTr q opts sel ks).2 = Outcome.exited c) →
        rawFold b (selectLoopTr q opts sel ks).1 = false) := by
  induction ks with
  | nil =>
      intro sel b
      constructor
      · rintro ⟨v, hv⟩; simp [selectLoopTr] at hv
      · rintro ⟨c, hc⟩; simp [selectLoopTr] at hc
  | cons k ks ih =>
      intro sel b
      cases k
      case ctrlC =>
        constructor
        · rintro ⟨v, hv⟩; simp [selectLoopTr] at hv
        · intro _
          simp [selectLoopTr, rawFold]
      case enter =>
        constructor
        · intro _; simp [selectLoopTr, rawFold]
        · rintro ⟨c, hc⟩; simp [selectLoopTr] at hc
      all_goals {
        constructor
        · rintro ⟨v, hv⟩
          simp only [selectLoopTr] at hv ⊢
          rcases hu : (selectUpdate opts.length sel _).2 with _ | _ <;>
            simp only [hu, if_true, if_false, Bool.false_eq_true, ite_true, ite_false,
              List.nil_append, List.append_assoc, List.cons_append, selectMoveUpTr,
              selectRenderTr, rawFold_cons_read, rawFold_cons_write,
              rawFold_map_write_append] at hv ⊢ <;>
            exact (ih _ b).1 ⟨v, hv⟩
        · rintro ⟨c, hc⟩
          simp only [selectLoopTr] at hc ⊢
          rcases hu : (selectUpdate opts.length sel _).2 with _ | _ <;>
            simp only [hu, if_true, if_false, Bool.false_eq_true, ite_true, ite_false,
              List.nil_append, List.append_assoc, List.cons_append, selectMoveUpTr,
              selectRenderTr, rawFold_cons_read, rawFold_cons_write,
              rawFold_map_write_append] at hc ⊢ <;>
            exact (ih _ b).2 ⟨c, hc⟩
      }

theorem inputLoopTr_raw (q dflt : String) (ks : List Key) :
    ∀ (v : String) (b : Bool),
      ((∃ r, (inputLoopTr q dflt v ks).2 = Outcome.done r) →
        rawFold b (inputLoopTr q dflt v ks).1 = b) ∧
      ((∃ c, (inputLoopTr q dflt v ks).2 = Outcome.exited c) →
        rawFold b (inputLoopTr q dflt v ks).1 = false) := by
  induction ks with
  | nil =>
      intro v b
      constructor
      · rintro ⟨r, hr⟩; simp [inputLoopTr] at hr
      · rintro ⟨c, hc⟩; simp [inputLoopTr] at hc
  | cons k ks ih =>
      intro v b
      cases k
      case ctrlC =>
        constructor
        · rintro ⟨r, hr⟩; simp [inputLoopTr] at hr
        · intro _; simp [inputLoopTr, rawFold]
      case enter =>
        constructor
        · intro _; simp [inputLoopTr, rawFold]
        · rintro ⟨c, hc⟩; simp [inputLoopTr] at hc
      all_goals {
        constructor
        · rintro ⟨r, hr⟩
          simp only [inputLoopTr] at hr ⊢
          rcases hu : (inputUpdate v _).2 with _ | _ <;>
            simp only [hu, Bool.false_eq_true, ite_true, ite_false, List.nil_append,
              List.append_assoc, List.cons_append, inputRenderTr, rawFold_cons_read,
              rawFold_cons_write, rawFold_map_write_append] at hr ⊢ <;>
            exact (ih _ b).1 ⟨r, hr⟩
        · rintro ⟨c, hc⟩
          simp only [inputLoopTr] at hc ⊢
          rcases hu : (inputUpdate v _).2 with _ | _ <;>
            simp only [hu, Bool.false_eq_true, ite_true, ite_false, List.nil_append,
              List.append_assoc, List.cons_append, inputRenderTr, rawFold_cons_read,
              rawFold_cons_write, rawFold_map_write_append] at hc ⊢ <;>
            exact (ih _ b).2 ⟨c, hc⟩
      }

theorem ratingLoopTr_raw (q : String) (lo hi : Int) (ks : List Key) :
    ∀ (v : Int) (b : Bool),
      ((∃ r, (ratingLoopTr q lo hi v ks).2 = Outcome.done r) →
        rawFold b (ratingLoopTr q lo hi v ks).1 = b) ∧
      ((∃ c, (ratingLoopTr q lo hi v ks).2 = Outcome.exited c) →
        rawFold b (ratingLoopTr q lo hi v ks).1 = false) := by
  induction ks with
  | nil =>
      intro v b
      constructor
      · rintro ⟨r, hr⟩; simp [ratingLoopTr] at hr
      · rintro ⟨c, hc⟩; simp [ratingLoopTr] at hc
  | cons k ks ih =>
      intro v b
      cases k
      case ctrlC =>
        constructor
        · rintro ⟨r, hr⟩; simp [ratingLoopTr] at hr
        · intro _; simp [ratingLoopTr, rawFold]
      case enter =>
        constructor
        · intro _; simp [ratingLoopTr, rawFold]
        · rintro ⟨c, hc⟩; simp [ratingLoopTr] at hc
      all_goals {
        constructor
        · rintro ⟨r, hr⟩
          simp only [ratingLoopTr] at hr ⊢
          rcases hu : (ratingUpdate lo hi v _).2 with _ | _ <;>
            simp only [hu, Bool.false_eq_true, ite_true, ite_false, List.nil_append,
              List.append_assoc, List.cons_append, ratingRenderTr, rawFold_cons_read,
              rawFold_cons_write, rawFold_map_write_append] at hr ⊢ <;>
            exact (ih _ b).1 ⟨r, hr⟩
        · rintro ⟨c, hc⟩
          simp only [ratingLoopTr] at hc ⊢
          rcases hu : (ratingUpdate lo hi v _).2 with _ | _ <;>
            simp only [hu, Bool.false_eq_true, ite_true, ite_false, List.nil_append,
              List.append_assoc, List.cons_append, ratingRenderTr, rawFold_cons_read,
              rawFold_cons_write, rawFold_map_write_append] at hc ⊢ <;>
            exact (ih _ b).2 ⟨c, hc⟩
      }

theorem confirmLoopTr_raw (q : String) (ks : List Key) :
    ∀ (v : Bool) (b : Bool),
      ((∃ r, (confirmLoopTr q v ks).2 = Outcome.done r) →
        rawFold b (confirmLoopTr q v ks).1 = b) ∧
      ((∃ c, (confirmLoopTr q v ks).2 = Outcome.exited c) →
        rawFold b (confirmLoopTr q v ks).1 = false) := by
  induction ks with
  | nil =>
      intro v b
      constructor
      · rintro ⟨r, hr⟩; simp [confirmLoopTr] at hr
      · rintro ⟨c, hc⟩; simp [confirmLoopTr] at hc
  | cons k ks ih =>
      intro v b
      cases k
      case ctrlC =>
        constructor
        · rintro ⟨r, hr⟩; simp [confirmLoopTr] at hr
        · intro _; simp [confirmLoopTr, rawFold]
      case enter =>
        constructor
        · intro _; simp [confirmLoopTr, rawFold]
        · rintro ⟨c, hc⟩; simp [confirmLoopTr] at hc
      all_goals {
        constructor
        · rintro ⟨r, hr⟩
          simp only [confirmLoopTr] at hr ⊢
          rcases hu : (confirmUpdate v _).2 with _ | _ <;>
            simp only [hu, Bool.false_eq_true, ite_true, ite_false, List.nil_append,
              List.append_assoc, List.cons_append, confirmRenderTr, rawFold_cons_read,
              rawFold_cons_write, rawFold_map_write_append] at hr ⊢ <;>
            exact (ih _ b).1 ⟨r, hr⟩
        · rintro ⟨c, hc⟩
          simp only [confirmLoopTr] at hc ⊢
          rcases hu : (confirmUpdate v _).2 with _ | _ <;>
            simp only [hu, Bool.false_eq_true, ite_true, ite_false, List.nil_append,
              List.append_assoc, List.cons_append, confirmRenderTr, rawFold_cons_read,
              rawFold_cons_write, rawFold_map_write_append] at hc ⊢ <;>
            exact (ih _ b).2 ⟨c, hc⟩
      }

/-- Claim C1: for every widget call on an interactive terminal, raw mode is
engaged only while that call's prompt loop is executing and reads as disengaged
again on every exit path: the interactive trace begins by engaging raw mode, and
whenever the call terminates (normal return or interrupt-triggered process end)
the raw-mode flag left by the trace is disengaged. -/
theorem C1_raw_mode_restored :
    (∀ (q : String) (opts : List String) (d : Int) (ks : List Key),
      (selectInteractive q opts d ks).2 ≠ Outcome.blocked →
      (selectInteractive q opts d ks).1.head? = some (Eff.setRaw true) ∧
      rawFold false (selectInteractive q opts d ks).1 = false) ∧
    (∀ (q dflt : String) (ks : List Key),
      (inputInteractive q dflt ks).2 ≠ Outcome.blocked →
      (inputInteractive q dflt ks).1.head? = some (Eff.setRaw true) ∧
      rawFold false (inputInteractive q dflt ks).1 = false) ∧
    (∀ (q : String) (lo hi d : Int) (ks : List Key),
      (ratingInteractive q lo hi d ks).2 ≠ Outcome.blocked →
      (ratingInteractive q lo hi d ks).1.head? = some (Eff.setRaw true) ∧
      rawFold false (ratingInteractive q lo hi d ks).1 = false) ∧
    (∀ (q : String) (d : Bool) (ks : List Key),
      (confirmInteractive q d ks).2 ≠ Outcome.blocked →
      (confirmInteractive q d ks).1.head? = some (Eff.setRaw true) ∧
      rawFold false (confirmInteractive q d ks).1 = false) := by
  refine ⟨?_, ?_, ?_, ?_⟩
  · intro q opts d ks h
    rcases hp : selectLoopTr q opts d ks with ⟨tr, out⟩
    cases out with
    | blocked => simp [selectInteractive, hp] at h
    | done v =>
        have hloop := (selectLoopTr_raw q opts ks d true).1 ⟨v, by rw [hp]⟩
        rw [hp] at hloop
        constructor
        · simp [selectInteractive, hp]
        · simp [selectInteractive, hp, List.cons_append, List.append_assoc,
            rawFold_cons_setRaw, rawFold_cons_write, selectRenderTr,
            rawFold_map_write_append, rawFold_append, hloop, rawFold]
    | exited c =>
        have hloop := (selectLoopTr_raw q opts ks d true).2 ⟨c, by rw [hp]⟩
        rw [hp] at hloop
        constructor
        · simp [selectInteractive, hp]
        · simp [selectInteractive, hp, List.cons_append, List.append_assoc,
            rawFold_cons_setRaw, rawFold_cons_write, selectRenderTr,
            rawFold_map_write_append, hloop]
  · intro q dflt ks h
    rcases hp : inputLoopTr q dflt "" ks with ⟨tr, out⟩
    cases out with
    | blocked => simp [inputInteractive, hp] at h
    | done v =>
        have hloop := (inputLoopTr_raw q dflt ks "" true).1 ⟨v, by rw [hp]⟩
        rw [hp] at hloop
        constructor
        · simp [inputInteractive, hp]
        · simp [inputInteractive, hp, List.cons_append, List.append_assoc,
            rawFold_cons_setRaw, rawFold_cons_write, inputRenderTr,
            rawFold_map_write_append, rawFold_append, hloop, rawFold]
    | exited c =>
        have hloop := (inputLoopTr_raw q dflt ks "" true).2 ⟨c, by rw [hp]⟩
        rw [hp] at hloop
        constructor
        · simp [inputInteractive, hp]
        · simp [inputInteractive, hp, List.cons_append, List.append_assoc,
            rawFold_cons_setRaw, rawFold_cons_write, inputRenderTr,
            rawFold_map_write_append, hloop]
  · intro q lo hi d ks h
    rcases hp : ratingLoopTr q lo hi d ks with ⟨tr, out⟩
    cases out with
    | blocked => simp [ratingInteractive, hp] at h
    | done v =>
        have hloop := (ratingLoopTr_raw q lo hi ks d true).1 ⟨v, by rw [hp]⟩
        rw [hp] at hloop
        constructor
        · simp [ratingInteractive, hp]
        · simp [ratingInteractive, hp, List.cons_append, List.append_assoc,
            rawFold_cons_setRaw, rawFold_cons_write, ratingRenderTr,
            rawFold_map_write_append, rawFold_append, hloop, rawFold]
    | exited c =>
        have hloop := (ratingLoopTr_raw q lo hi ks d true).2 ⟨c, by rw [hp]⟩
        rw [hp] at hloop
        constructor
        · simp [ratingInteractive, hp]
        · simp [ratingInteractive, hp, List.cons_append, List.append_assoc,
            rawFold_cons_setRaw, rawFold_cons_write, ratingRenderTr,
            rawFold_map_write_append, hloop]
  · intro q d ks h
    rcases hp : confirmLoopTr q d ks with ⟨tr, out⟩
    cases out with
    | blocked => simp [confirmInteractive, hp] at h
    | done v =>
        have hloop := (confirmLoopTr_raw q ks d true).1 ⟨v, by rw [hp]⟩
        rw [hp] at hloop
        constructor
        · simp [confirmInteractive, hp]
        · simp [confirmInteractive, hp, List.cons_append, List.append_assoc,
            rawFold_cons_setRaw, rawFold_cons_write, confirmRenderTr,
            rawFold_map_write_append, rawFold_append, hloop, rawFold]
    | exited c =>
        have hloop := (confirmLoopTr_raw q ks d true).2 ⟨c, by rw [hp]⟩
        rw [hp] at hloop
        constructor
        · simp [confirmInteractive, hp]
        · simp [confirmInteractive, hp, List.cons_append, List.append_assoc,
            rawFold_cons_setRaw, rawFold_cons_write, confirmRenderTr,
            rawFold_map_write_append, hloop]

/-- Witness for C1 at concrete calls: one normal return and one interrupt per
widget family, each discharging the non-blocked hypothesis. -/
theorem C1_raw_mode_restored_witness :
    rawFold false (selectInteractive "Pick" ["a"] 0 [Key.enter]).1 = false ∧
    rawFold false (inputInteractive "Name" "d" [Key.ctrlC]).1 = false ∧
    rawFold false (ratingInteractive "Rate" 1 5 3 [Key.enter]).1 = false ∧
    rawFold false (confirmInteractive "Sure" true [Key.enter]).1 = false :=
  ⟨(C1_raw_mode_restored.1 "Pick" ["a"] 0 [Key.enter] (by decide)).2,
   (C1_raw_mode_restored.2.1 "Name" "d" [Key.ctrlC] (by decide)).2,
   (C1_raw_mode_restored.2.2.1 "Rate" 1 5 3 [Key.enter] (by decide)).2,
   (C1_raw_mode_restored.2.2.2 "Sure" true [Key.enter] (by decide)).2⟩

/-- Claim C2: for every non-empty byte chunk delivered by one read, the key
decoder returns exactly one key by these rules in priority order: first byte
0x03 is interrupt; byte 13 enter; byte 127 or 8 backspace; byte 27 alone
escape; bytes 27, 0x5B followed by 0x41/0x42/0x43/0x44 are up/down/right/left;
any other content after byte 27 is unknown; any other leading byte is a char
key carrying the whole chunk decoded as text. -/
theorem C2_readKey_priority :
    (∀ rest : List Nat, readKey (0x03 :: rest) = Key.ctrlC) ∧
    (∀ rest : List Nat, readKey (13 :: rest) = Key.enter) ∧
    (∀ rest : List Nat, readKey (127 :: rest) = Key.backspace) ∧
    (∀ rest : List Nat, readKey (8 :: rest) = Key.backspace) ∧
    (readKey [27] = Key.escape) ∧
    (∀ rest : List Nat, readKey (27 :: 0x5B :: 0x41 :: rest) = Key.up) ∧
    (∀ rest : List Nat, readKey (27 :: 0x5B :: 0x42 :: rest) = Key.down) ∧
    (∀ rest : List Nat, readKey (27 :: 0x5B :: 0x43 :: rest) = Key.right) ∧
    (∀ rest : List Nat, readKey (27 :: 0x5B :: 0x44 :: rest) = Key.left) ∧
    (∀ tail : List Nat, tail ≠ [] → tail.getD 0 0 ≠ 0x5B →
      readKey (27 :: tail) = Key.unknown) ∧
    (∀ tail : List Nat, tail ≠ [] → tail.getD 1 0 ≠ 0x41 → tail.getD 1 0 ≠ 0x42 →
      tail.getD 1 0 ≠ 0x43 → tail.getD 1 0 ≠ 0x44 → readKey (27 :: tail) = Key.unknown) ∧
    (∀ (b : Nat) (rest : List Nat), b ≠ 0x03 → b ≠ 13 → b ≠ 127 → b ≠ 8 → b ≠ 27 →
      readKey (b :: rest) = Key.char (decodeUtf8 (b :: rest))) := by
  refine ⟨fun rest => rfl, fun rest => rfl, fun rest => rfl, fun rest => rfl, rfl,
    fun rest => rfl, fun rest => rfl, fun rest => rfl, fun rest => rfl, ?_, ?_, ?_⟩
  · rintro (_ | ⟨t, ts⟩) hne hget
    · exact absurd rfl hne
    · simp only [List.getD_cons_zero] at hget
      simp [readKey, hget]
  · rintro (_ | ⟨t, ts⟩) hne h1 h2 h3 h4
    · exact absurd rfl hne
    · simp only [List.getD_eq_getElem?_getD, List.getElem?_cons_succ] at h1 h2 h3 h4
      by_cases ht : t = 91
      · subst ht; simp [readKey, h1, h2, h3, h4]
      · simp [readKey, ht]
  · intro b rest h3 h13 h127 h8 h27
    simp [readKey, h3, h13, h127, h8, h27]

/-- Witness for C2 at concrete chunks, discharging the hypotheses of the
unknown-after-escape and char conjuncts. -/
theorem C2_readKey_priority_witness :
    readKey [27, 92] = Key.unknown ∧ readKey [27, 91, 90] = Key.unknown ∧
    readKey [120] = Key.char "x" := by
  have h := C2_readKey_priority
  refine ⟨h.2.2.2.2.2.2.2.2.2.1 [92] (by decide) (by decide),
    h.2.2.2.2.2.2.2.2.2.2.1 [91, 90] (by decide) (by decide) (by decide) (by decide)
      (by decide), ?_⟩
  rw [h.2.2.2.2.2.2.2.2.2.2.2 120 [] (by decide) (by decide) (by decide) (by decide)
    (by decide)]
  decide

/-- Claim C3: for every widget's interactive loop, when an interrupt key is
decoded the call never returns a normal result: the loop's remaining trace
restores terminal state (cursor shown again for select, which hid it; raw mode
disengaged) and then exits the process with status 130, the exit being the
final effect; the outcome is `exited 130`, never `done`. -/
theorem C3_interrupt_restores_then_exits :
    (∀ (q : String) (opts : List String) (sel : Int) (ks : List Key),
      selectLoopTr q opts sel (Key.ctrlC :: ks) =
        ([Eff.read, Eff.write ansi.showCursor, Eff.setRaw false, Eff.exit 130],
         Outcome.exited 130)) ∧
    (∀ (q dflt v : String) (ks : List Key),
      inputLoopTr q dflt v (Key.ctrlC :: ks) =
        ([Eff.read, Eff.setRaw false, Eff.exit 130], Outcome.exited 130)) ∧
    (∀ (q : String) (lo hi v : Int) (ks : List Key),
      ratingLoopTr q lo hi v (Key.ctrlC :: ks) =
        ([Eff.read, Eff.setRaw false, Eff.exit 130], Outcome.exited 130)) ∧
    (∀ (q : String) (v : Bool) (ks : List Key),
      confirmLoopTr q v (Key.ctrlC :: ks) =
        ([Eff.read, Eff.setRaw false, Eff.exit 130], Outcome.exited 130)) ∧
    (∀ (q : String) (opts : List String) (d : Int) (ks : List Key),
      (selectInteractive q opts d (Key.ctrlC :: ks)).2 = Outcome.exited 130) ∧
    (∀ (q dflt : String) (ks : List Key),
      (inputInteractive q dflt (Key.ctrlC :: ks)).2 = Outcome.exited 130) ∧
    (∀ (q : String) (lo hi d : Int) (ks : List Key),
      (ratingInteractive q lo hi d (Key.ctrlC :: ks)).2 = Outcome.exited 130) ∧
    (∀ (q : String) (d : Bool) (ks : List Key),
      (confirmInteractive q d (Key.ctrlC :: ks)).2 = Outcome.exited 130) :=
  ⟨fun _ _ _ _ => rfl, fun _ _ _ _ => rfl, fun _ _ _ _ _ => rfl, fun _ _ _ => rfl,
   fun _ _ _ _ => rfl, fun _ _ _ => rfl, fun _ _ _ _ _ => rfl, fun _ _ _ => rfl⟩

/-- A single decimal digit parses to itself under `parseInt(_, 10)`. -/
theorem jsParseInt_digit (d : Nat) (h : d ≤ 9) : jsParseInt (toString d) = some (d : Int) := by
  interval_cases d <;> decide

/-- A non-empty JS string has positive length. -/
theorem strLengthPos (v : String) (h : v ≠ "") : 0 < v.length := by
  cases v with
  | mk data =>
      cases data with
      | nil => exact absurd rfl h
      | cons c cs => simp [String.length]

/-- Claim C4: interactive Select's transition table: up/down move the selected
index by -1/+1 clamped to [0, len-1] (for any in-range index); a digit key
matching 1..len jumps to digit-1; enter returns the selected index; a key
sequence of only enter returns the (in-range) defaultIndex; with 5 options,
4 downs from index 0 then enter returns 4, and a 5th down has no effect. -/
theorem C4_select_transitions :
    (∀ (len : Nat) (sel : Int), 0 ≤ sel → sel < (len : Int) →
      (selectUpdate len sel Key.up).1 = max (sel - 1) 0 ∧
      (selectUpdate len sel Key.down).1 = min (sel + 1) ((len : Int) - 1) ∧
      (∀ d : Nat, 1 ≤ d → d ≤ 9 → d ≤ len →
        (selectUpdate len sel (Key.char (toString d))).1 = (d : Int) - 1)) ∧
    (∀ (q : String) (opts : List String) (sel : Int) (ks : List Key),
      (selectLoopTr q opts sel (Key.enter :: ks)).2 = Outcome.done sel) ∧
    (∀ (q : String) (opts : List String) (d : Int), 0 ≤ d → d < (opts.length : Int) →
      (selectInteractive q opts d [Key.enter]).2 = Outcome.done d) ∧
    ((selectInteractive "q" ["a", "b", "c", "d", "e"] 0
        [Key.down, Key.down, Key.down, Key.down, Key.enter]).2 = Outcome.done 4) ∧
    ((selectInteractive "q" ["a", "b", "c", "d", "e"] 0
        [Key.down, Key.down, Key.down, Key.down, Key.down, Key.enter]).2 =
      Outcome.done 4) := by
  refine ⟨?_, fun q opts sel ks => rfl, fun q opts d h0 hlen => rfl, rfl, rfl⟩
  intro len sel h0 hlen
  refine ⟨?_, ?_, ?_⟩
  · simp only [selectUpdate]
    split_ifs with h <;> omega
  · simp only [selectUpdate]
    split_ifs with h <;> omega
  · intro d h1 h9 hd
    have hp := jsParseInt_digit d h9
    have hc : (1 : Int) ≤ (d : Int) ∧ (d : Int) ≤ (len : Int) :=
      ⟨by exact_mod_cast h1, by exact_mod_cast hd⟩
    simp [selectUpdate, hp, hc]

/-- Witness for C4 at concrete inputs, discharging the range hypotheses. -/
theorem C4_select_transitions_witness :
    (selectUpdate 3 1 Key.up).1 = max (1 - 1 : Int) 0 ∧
    (selectUpdate 3 1 (Key.char (toString 2))).1 = (2 : Int) - 1 ∧
    (selectInteractive "x" ["a", "b", "c"] 2 [Key.enter]).2 = Outcome.done 2 := by
  have h := C4_select_transitions
  exact ⟨(h.1 3 1 (by decide) (by decide)).1,
         (h.1 3 1 (by decide) (by decide)).2.2 2 (by decide) (by decide) (by decide),
         h.2.2.1 "x" ["a", "b", "c"] 2 (by decide) (by decide)⟩

/-- Claim C5: interactive Input's transition table: a char(text) key appends
text to the buffer; backspace drops the last character of a non-empty buffer
and does nothing on an empty one; enter yields the buffer, and the call
returns the buffer if non-empty, else the default; with default
"my-experiment" and only enter the result is "my-experiment"; typing x, y, z,
backspace, enter returns "xy". -/
theorem C5_input_transitions :
    (∀ (q dflt v c : String) (ks : List Key),
      (inputLoopTr q dflt v (Key.char c :: ks)).2 = (inputLoopTr q dflt (v ++ c) ks).2) ∧
    (∀ (q dflt v : String) (ks : List Key), v ≠ "" →
      (inputLoopTr q dflt v (Key.backspace :: ks)).2 =
        (inputLoopTr q dflt (String.mk v.data.dropLast) ks).2) ∧
    (∀ (q dflt : String) (ks : List Key),
      (inputLoopTr q dflt "" (Key.backspace :: ks)).2 = (inputLoopTr q dflt "" ks).2) ∧
    (∀ (q dflt v : String) (ks : List Key),
      (inputLoopTr q dflt v (Key.enter :: ks)).2 = Outcome.done v) ∧
    (∀ (q dflt : String) (ks : List Key) (v : String),
      (inputLoopTr q dflt "" ks).2 = Outcome.done v →
      (inputInteractive q dflt ks).2 = Outcome.done (if v = "" then dflt else v)) ∧
    ((inputInteractive "q" "my-experiment" [Key.enter]).2 =
      Outcome.done "my-experiment") ∧
    ((inputInteractive "q" "d" [Key.char "x", Key.char "y", Key.char "z", Key.backspace,
        Key.enter]).2 = Outcome.done "xy") := by
  refine ⟨fun q dflt v c ks => rfl, ?_, fun q dflt ks => rfl, fun q dflt v ks => rfl,
    ?_, rfl, rfl⟩
  · intro q dflt v ks h
    have hlen := strLengthPos v h
    simp [inputLoopTr, inputUpdate, hlen]
  · intro q dflt ks v h
    rcases hp : inputLoopTr q dflt "" ks with ⟨tr, out⟩
    rw [hp] at h
    cases out with
    | done w => simp at h; subst h; simp [inputInteractive, hp]
    | exited c => simp at h
    | blocked => simp at h

/-- Witness for C5 at concrete inputs, discharging the non-empty-buffer and
loop-outcome hypotheses. -/
theorem C5_input_transitions_witness :
    (inputLoopTr "q" "d" "ab" (Key.backspace :: [Key.enter])).2 =
      (inputLoopTr "q" "d" (String.mk "ab".data.dropLast) [Key.enter]).2 ∧
    (inputInteractive "q" "d" [Key.enter]).2 = Outcome.done (if "" = "" then "d" else "") := by
  have h := C5_input_transitions
  exact ⟨h.2.1 "q" "d" "ab" [Key.enter] (by decide),
         h.2.2.2.2.1 "q" "d" [Key.enter] "" (by decide)⟩

/-- Claim C6: interactive Rating's transition table: left/down decrement the
value clamped to min; right/up increment clamped to max; a digit key within
[min, max] jumps to that value; enter returns the current value; with min=1,
max=5, default=3, left, left, enter returns 1 and a third left stays at 1. -/
theorem C6_rating_transitions :
    (∀ (lo hi v : Int), lo ≤ v → v ≤ hi →
      (ratingUpdate lo hi v Key.left).1 = max (v - 1) lo ∧
      (ratingUpdate lo hi v Key.down).1 = max (v - 1) lo ∧
      (ratingUpdate lo hi v Key.right).1 = min (v + 1) hi ∧
      (ratingUpdate lo hi v Key.up).1 = min (v + 1) hi ∧
      (∀ d : Nat, d ≤ 9 → lo ≤ (d : Int) → (d : Int) ≤ hi →
        (ratingUpdate lo hi v (Key.char (toString d))).1 = (d : Int))) ∧
    (∀ (q : String) (lo hi v : Int) (ks : List Key),
      (ratingLoopTr q lo hi v (Key.enter :: ks)).2 = Outcome.done v) ∧
    ((ratingInteractive "q" 1 5 3 [Key.left, Key.left, Key.enter]).2 =
      Outcome.done 1) ∧
    ((ratingInteractive "q" 1 5 3 [Key.left, Key.left, Key.left, Key.enter]).2 =
      Outcome.done 1) := by
  refine ⟨?_, fun q lo hi v ks => rfl, rfl, rfl⟩
  intro lo hi v hlo hhi
  refine ⟨?_, ?_, ?_, ?_, ?_⟩
  · simp only [ratingUpdate]; split_ifs with h <;> omega
  · simp only [ratingUpdate]; split_ifs with h <;> omega
  · simp only [ratingUpdate]; split_ifs with h <;> omega
  · simp only [ratingUpdate]; split_ifs with h <;> omega
  · intro d h9 hdlo hdhi
    have hp := jsParseInt_digit d h9
    have hc : lo ≤ (d : Int) ∧ (d : Int) ≤ hi := ⟨hdlo, hdhi⟩
    simp [ratingUpdate, hp, hc]

/-- Witness for C6 at concrete inputs, discharging the range hypotheses. -/
theorem C6_rating_transitions_witness :
    (ratingUpdate 1 5 3 Key.left).1 = max (3 - 1 : Int) 1 ∧
    (ratingUpdate 1 5 3 (Key.char (toString 5))).1 = ((5 : Nat) : Int) := by
  have h := C6_rating_transitions
  exact ⟨(h.1 1 5 3 (by decide) (by decide)).1,
         (h.1 1 5 3 (by decide) (by decide)).2.2.2.2 5 (by decide) (by decide) (by decide)⟩

/-- Claim C7: interactive Confirm's transition table: any arrow key toggles the
boolean; char 'y'/'Y' forces true and 'n'/'N' forces false; enter returns the
current value; default false then y, enter returns true; default true then n,
enter returns false; untouched enter returns the default. -/
theorem C7_confirm_transitions :
    (∀ v : Bool,
      (confirmUpdate v Key.up).1 = !v ∧ (confirmUpdate v Key.down).1 = !v ∧
      (confirmUpdate v Key.left).1 = !v ∧ (confirmUpdate v Key.right).1 = !v) ∧
    (∀ v : Bool,
      (confirmUpdate v (Key.char "y")).1 = true ∧
      (confirmUpdate v (Key.char "Y")).1 = true ∧
      (confirmUpdate v (Key.char "n")).1 = false ∧
      (confirmUpdate v (Key.char "N")).1 = false) ∧
    (∀ (q : String) (v : Bool) (ks : List Key),
      (confirmLoopTr q v (Key.enter :: ks)).2 = Outcome.done v) ∧
    ((confirmInteractive "q" false [Key.char "y", Key.enter]).2 = Outcome.done true) ∧
    ((confirmInteractive "q" true [Key.char "n", Key.enter]).2 = Outcome.done false) ∧
    (∀ (q : String) (d : Bool), (confirmInteractive q d [Key.enter]).2 = Outcome.done d) :=
  ⟨fun _ => ⟨rfl, rfl, rfl, rfl⟩, fun _ => ⟨rfl, rfl, rfl, rfl⟩,
   fun _ _ _ => rfl, rfl, rfl, fun _ _ => rfl⟩

/-- Counterexample to claim C8: in fallback mode with default true, the
non-blank unrecognized line "x" makes confirm return false, not the supplied
default (true). -/
theorem C8_confirm_fallback_cex :
    (confirmFallback "q" true (some "x")).2 = false ∧
    (confirmFallback "q" true (some "x")).2 ≠ true := by decide

/-- Claim C8 (amended): in fallback mode, Confirm maps the read line as
follows: an absent or blank line returns the default; a non-blank line returns
exactly the test "trimmed lowercase equals y or yes" — so y/yes yields true and
every other non-blank line, n/no included, yields false, never a fault; the
supplied default is not consulted for non-blank input. -/
theorem C8_confirm_fallback :
    (∀ (q : String) (d : Bool), (confirmFallback q d none).2 = d) ∧
    (∀ (q s : String) (d : Bool), jsTrim s = "" →
      (confirmFallback q d (some s)).2 = d) ∧
    (∀ (q s : String) (d : Bool), jsTrim s ≠ "" →
      (confirmFallback q d (some s)).2 =
        (jsToLower (jsTrim s) == "y" || jsToLower (jsTrim s) == "yes")) := by
  refine ⟨fun q d => rfl, ?_, ?_⟩
  · intro q s d h
    simp [confirmFallback, h]
  · intro q s d h
    simp [confirmFallback, h]

/-- Witness for C8 at concrete lines, discharging the blank/non-blank
hypotheses. -/
theorem C8_confirm_fallback_witness :
    (confirmFallback "q" false (some " YES ")).2 =
      (jsToLower (jsTrim " YES ") == "y" || jsToLower (jsTrim " YES ") == "yes") ∧
    (confirmFallback "q" true (some "  ")).2 = true :=
  ⟨C8_confirm_fallback.2.2 "q" " YES " false (by decide),
   C8_confirm_fallback.2.1 "q" "  " true (by decide)⟩

/-- A trace made of write effects has one write per fragment. -/
theorem writeCount_map_write (l : List String) : writeCount (l.map Eff.write) = l.length := by
  induction l with
  | nil => rfl
  | cons s t ih => simp [writeCount, List.countP_cons] at ih ⊢

/-- Counterexample to claim C9: a single-option select frame issues 4 write
calls, not exactly one write per redraw. -/
theorem C9_one_write_cex :
    writeCount (selectRenderTr "q" ["a"] 0) = 4 ∧
    writeCount (selectRenderTr "q" ["a"] 0) ≠ 1 := by decide

/-- Claim C9 (amended): on every redraw, a widget issues one write call per
frame fragment: select issues 2 + 2·len writes per frame (clear and question
line, then a clear and a text line per option); input, rating and confirm each
issue exactly 2 writes per frame. -/
theorem C9_redraw_write_counts :
    (∀ (q : String) (opts : List String) (sel : Int),
      writeCount (selectRenderTr q opts sel) = 2 + 2 * opts.length) ∧
    (∀ q dflt v : String, writeCount (inputRenderTr q dflt v) = 2) ∧
    (∀ (q : String) (lo hi v : Int), writeCount (ratingRenderTr q lo hi v) = 2) ∧
    (∀ (q : String) (v : Bool), writeCount (confirmRenderTr q v) = 2) := by
  refine ⟨?_, fun q dflt v => rfl, fun q lo hi v => rfl, fun q v => rfl⟩
  intro q opts sel
  rw [selectRenderTr, writeCount_map_write, selectFrameWrites]
  simp only [List.length_cons]
  have h2 : ∀ (l : List (Nat × String)),
      (l.flatMap fun p =>
        [ansi.clearLine,
         if (p.1 : Int) = sel then ansi.cyan ++ "❯ " ++ p.2 ++ ansi.reset ++ "
"
         else "  " ++ ansi.dim ++ p.2 ++ ansi.reset ++ "
"]).length = 2 * l.length := by
    intro l
    induction l with
    | nil => rfl
    | cons a t ih =>
        simp only [List.flatMap_cons, List.length_append, List.length_cons,
          List.length_nil, ih]
        omega
  rw [h2, List.enum_length]
  omega

/-- Claim C10: for an empty option list, select returns -1 immediately with an
empty effect trace — no read, no raw-mode engagement, no output — regardless of
whether standard input is a terminal. -/
theorem C10_select_empty_options :
    ∀ (q : String) (d : Int) (stdin : StdIn),
      select q [] d stdin = ([], Outcome.done (-1)) :=
  fun _ _ _ => rfl
